import Mathlib

/-!
Verification of the Stratum request-fulfillment pipeline.

Strings and byte slices from the Go source are both modelled as `List Char`,
one `Char` per byte (every Go byte 0..255 is a valid code point, so the
encoding is faithful and byte-level operations such as prefix tests agree
with the Go string operations used by the code).
-/

/-- Converts a Lean string literal to the byte-list model. -/
def strL (s : String) : List Char := s.data

/-- Index of the first occurrence of a character, mirroring Go strings.Index
for a one-byte needle (None models the Go result -1). -/
def firstIdx (c : Char) : List Char → Option Nat
  | [] => none
  | x :: t => if x = c then some 0 else (firstIdx c t).map (· + 1)

/-- Go strings.Contains: does the needle occur as a contiguous substring. -/
def containsSub (needle : List Char) : List Char → Bool
  | [] => needle.isEmpty
  | c :: t => needle.isPrefixOf (c :: t) || containsSub needle t

/-- Go strings.SplitN(s, sep, 2) for a one-byte separator: the parts before
and after the first occurrence, or none when the separator is absent. -/
def splitFirst (sep : Char) : List Char → Option (List Char × List Char)
  | [] => none
  | c :: t =>
    if c = sep then some ([], t)
    else
      match splitFirst sep t with
      | some (a, b) => some (c :: a, b)
      | none => none

/-- Go strings.TrimPrefix. -/
def goTrimPre (pre s : List Char) : List Char :=
  if pre.isPrefixOf s then s.drop pre.length else s

/-- Go strings.TrimSuffix. -/
def goTrimSuf (suf s : List Char) : List Char :=
  if suf.isSuffixOf s then s.take (s.length - suf.length) else s

/-! ## Base64 (Go encoding/base64 StdEncoding decode)

Standard alphabet, mandatory padding, line breaks skipped, padding only at
the very end of the input; non-zero trailing bits are not rejected (the Go
default decoder does not use Strict mode).
-/

/-- Value of one standard-alphabet base64 digit. -/
def b64Val (c : Char) : Option Nat :=
  if 65 ≤ c.toNat ∧ c.toNat ≤ 90 then some (c.toNat - 65)
  else if 97 ≤ c.toNat ∧ c.toNat ≤ 122 then some (c.toNat - 71)
  else if 48 ≤ c.toNat ∧ c.toNat ≤ 57 then some (c.toNat + 4)
  else if c.toNat = 43 then some 62
  else if c.toNat = 47 then some 63
  else none

/-- Decodes a stream of base64 quantums (input already stripped of line
breaks). Each full quantum of four digits yields three bytes; a final
quantum may carry one or two padding bytes; any other shape is an error. -/
def b64Quanta : List Char → Option (List Char)
  | [] => some []
  | a :: b :: c :: d :: rest =>
    match b64Val a, b64Val b with
    | some va, some vb =>
      if c = '=' then
        if d = '=' ∧ rest = [] then
          some [Char.ofNat (va * 4 + vb / 16)]
        else none
      else
        match b64Val c with
        | some vc =>
          if d = '=' then
            if rest = [] then
              some [Char.ofNat (va * 4 + vb / 16), Char.ofNat (vb % 16 * 16 + vc / 4)]
            else none
          else
            match b64Val d with
            | some vd =>
              (b64Quanta rest).map fun tl =>
                Char.ofNat (va * 4 + vb / 16) :: Char.ofNat (vb % 16 * 16 + vc / 4) ::
                  Char.ofNat (vc % 4 * 64 + vd) :: tl
            | none => none
        | none => none
    | _, _ => none
  | _ => none

/-- Go base64.StdEncoding.DecodeString on the byte-list model. -/
def b64Decode (s : List Char) : Option (List Char) :=
  b64Quanta (s.filter fun c => !(c = Char.ofNat 13 ∨ c = Char.ofNat 10))

/-! ## Indirection Resolver (internal/datasource/datasource.go, DatabaseSource.Fetch) -/

/-- A completed outbound HTTP response: status code and body bytes. -/
structure HttpResp where
  status : Nat
  body : List Char
deriving DecidableEq

/-- Result of a data-source fetch: bytes, the Go nil-nil not-found case, or
an error. -/
inductive FetchResult where
  | ok (bytes : List Char)
  | notFound
  | fetchError
deriving DecidableEq

/-- Does the content carry the URL prefix checked by the resolver. -/
def httpPrefixed (content : List Char) : Bool :=
  (strL "http://").isPrefixOf content || (strL "https://").isPrefixOf content

/-- The indirection chain applied by DatabaseSource.Fetch to the bytes
returned from the database, lines 58 to 102 of datasource.go. The outbound
GET is abstracted by the oracle g: none is a transport error, otherwise the
completed response. The code falls out of the data-URI block into the URL
check and then the plain-decode fallback; resolveTail is that shared
straight-line continuation. -/
def resolveTail (g : List Char → Option HttpResp) (content : List Char) : FetchResult :=
  if httpPrefixed content then
    match g content with
    | none => .fetchError
    | some r =>
      if r.status ≠ 200 then
        if r.status = 404 then .notFound else .fetchError
      else .ok r.body
  else
    match b64Decode content with
    | some dec => .ok dec
    | none => .ok content

def resolveIndirection (g : List Char → Option HttpResp) (data : List Char) : FetchResult :=
  if (strL "data:").isPrefixOf data then
    match splitFirst ',' data with
    | some (pre, post) =>
      if containsSub (strL ";base64") pre then
        match b64Decode post with
        | some dec => .ok dec
        | none => resolveTail g data
      else resolveTail g data
    | none => resolveTail g data
  else resolveTail g data

/-- Rule 1 of the resolution chain as the spec words it: a data-URI whose
part before the first comma carries a base64 marker, decoded successfully. -/
def dataUriDecode (content : List Char) : Option (List Char) :=
  if (strL "data:").isPrefixOf content then
    match splitFirst ',' content with
    | some (pre, post) =>
      if containsSub (strL ";base64") pre then b64Decode post else none
    | none => none
  else none

/-- The resolution chain as the spec words it: four ordered rules, first
match wins, where rule 1 falls through on decode failure. -/
def resolveChainSpec (g : List Char → Option HttpResp) (content : List Char) : FetchResult :=
  match dataUriDecode content with
  | some dec => .ok dec
  | none => resolveTail g content

/-- A list starting with the URL scheme bytes cannot also start with the
data-URI prefix: the leading byte differs. -/
theorem http_not_data {c : List Char} (h : httpPrefixed c = true) :
    (strL "data:").isPrefixOf c = false := by
  cases c with
  | nil => simp [httpPrefixed, strL, List.isPrefixOf] at h
  | cons a t =>
    simp only [httpPrefixed, strL, Bool.or_eq_true] at h
    have ha : 'h' = a := by
      rcases h with h | h <;>
      · simp only [List.isPrefixOf_cons₂, Bool.and_eq_true, beq_iff_eq] at h
        exact h.1
    subst ha
    simp [strL, List.isPrefixOf_cons₂]

/-- The code-shaped resolver and the spec-worded ordered chain agree on
every input and every HTTP oracle. -/
theorem resolveIndirection_eq_chain (g : List Char → Option HttpResp) (c : List Char) :
    resolveIndirection g c = resolveChainSpec g c := by
  unfold resolveIndirection resolveChainSpec dataUriDecode
  by_cases hd : (strL "data:").isPrefixOf c = true
  · simp only [hd, if_true]
    cases hs : splitFirst ',' c with
    | none => rfl
    | some pr =>
      obtain ⟨pre, post⟩ := pr
      by_cases hb : containsSub (strL ";base64") pre = true
      · simp only [hb, if_true]
      · simp only [Bool.not_eq_true] at hb
        simp [hb]
  · simp only [Bool.not_eq_true] at hd
    simp [hd]

/-- Away from the URL case the tail of the chain always returns bytes. -/
theorem resolveTail_no_http {g : List Char → Option HttpResp} {c : List Char}
    (h : httpPrefixed c = false) : ∃ b, resolveTail g c = .ok b := by
  unfold resolveTail
  rw [h]
  simp only [Bool.false_eq_true, if_false]
  cases b64Decode c with
  | some d => exact ⟨d, rfl⟩
  | none => exact ⟨c, rfl⟩

/-- On content without the URL prefix the whole chain returns bytes: it
produces neither an error nor a not-found outcome. -/
theorem resolveIndirection_no_http {g : List Char → Option HttpResp} {c : List Char}
    (h : httpPrefixed c = false) : ∃ b, resolveIndirection g c = .ok b := by
  unfold resolveIndirection
  by_cases hd : (strL "data:").isPrefixOf c = true
  · rw [if_pos hd]
    cases hs : splitFirst ',' c with
    | none => exact resolveTail_no_http h
    | some pr =>
      obtain ⟨pre, post⟩ := pr
      by_cases hb : containsSub (strL ";base64") pre = true
      · simp only [hb, if_true]
        cases hdec : b64Decode post with
        | some d => exact ⟨d, rfl⟩
        | none => exact resolveTail_no_http h
      · simp only [Bool.not_eq_true] at hb
        simp only [hb, Bool.false_eq_true, if_false]
        exact resolveTail_no_http h
  · rw [if_neg hd]
    exact resolveTail_no_http h

/-- On URL content with a completed response, the resolver maps 404 to
not-found, every other non-200 status to an error, and 200 to the body. -/
theorem resolveIndirection_http {g : List Char → Option HttpResp} {c : List Char} {r : HttpResp}
    (hp : httpPrefixed c = true) (hg : g c = some r) :
    resolveIndirection g c =
      if r.status = 404 then .notFound
      else if r.status = 200 then .ok r.body
      else .fetchError := by
  unfold resolveIndirection
  rw [http_not_data hp]
  simp only [Bool.false_eq_true, if_false]
  unfold resolveTail
  rw [hp]
  simp only [if_true]
  rw [hg]
  by_cases h2 : r.status = 200
  · simp [h2]
  · by_cases h4 : r.status = 404 <;> simp [h2, h4]

/-- Claim C1: the indirection resolver applies the first matching rule in
order (data-URI base64 with fall-through on decode failure, then outbound
URL fetch with 404 mapped to not-found and other non-200 statuses to an
error, then whole-content base64, then the raw bytes); only the URL fetch
can produce an error, and the three concrete examples resolve as stated. -/
theorem claim_C1_indirection (g : List Char → Option HttpResp) (c : List Char) :
    (resolveIndirection g c = resolveChainSpec g c)
  ∧ (httpPrefixed c = false → ∃ b, resolveIndirection g c = .ok b)
  ∧ (∀ r, httpPrefixed c = true → g c = some r →
       resolveIndirection g c =
         if r.status = 404 then FetchResult.notFound
         else if r.status = 200 then FetchResult.ok r.body
         else FetchResult.fetchError)
  ∧ resolveIndirection g (strL "data:text/plain;base64,dGVzdA==") = FetchResult.ok (strL "test")
  ∧ resolveIndirection g (strL "dGVzdA==") = FetchResult.ok (strL "test")
  ∧ resolveIndirection g (strL "hello") = FetchResult.ok (strL "hello") :=
  ⟨resolveIndirection_eq_chain g c, fun h => resolveIndirection_no_http h,
   fun _ hp hg => resolveIndirection_http hp hg, rfl, rfl, rfl⟩

/-- Witness for claim C1 at concrete inputs. -/
theorem claim_C1_indirection_witness :
    resolveIndirection (fun _ => some ⟨404, strL "gone"⟩) (strL "http://u") = FetchResult.notFound
  ∧ ∃ b, resolveIndirection (fun _ => some ⟨404, strL "gone"⟩) (strL "zz9") = FetchResult.ok b := by
  constructor
  · have h :=
      (claim_C1_indirection (fun _ => some ⟨404, strL "gone"⟩) (strL "http://u")).2.2.1
        ⟨404, strL "gone"⟩ (by decide) rfl
    rw [h]
    decide
  · exact (claim_C1_indirection (fun _ => some ⟨404, strL "gone"⟩) (strL "zz9")).2.1 (by decide)

/-! ## Dispatcher (unnamed part_003, Server.createHandler lines 69 to 136)

The handler body is a straight-line function of the request and of the
results of its two effectful collaborators, so it is embedded as a pure
function of those results: the cache lookup reply (data slice and error
flag, the two being independent in Go) and the data-source fetch result.
The outcome record registers the response and which cache operations the
handler performed.
-/

/-- The per-route configuration consumed by the handler (config.Project). -/
structure Project where
  name : List Char
  route : List Char
  idPlaceholder : List Char
  contentType : List Char
  cacheTTL : Nat
deriving DecidableEq

/-- The request data the handler reads: the captured path parameter and the
two cache-relevant headers. -/
structure Request where
  param : List Char
  pragmaHeader : List Char
  cacheControlHeader : List Char
deriving DecidableEq

/-- The pair returned by cache.Get: the data slice (none models a nil
slice) and whether an error was returned alongside. -/
structure CacheGetReply where
  data : Option (List Char)
  errored : Bool
deriving DecidableEq

/-- What the handler did and responded. -/
structure HandlerOutcome where
  status : Nat
  body : List Char
  contentType : Option (List Char)
  xCacheStatus : Option (List Char)
  cacheControlMaxAge : Option Nat
  didCacheGet : Bool
  didCacheSet : Bool
  setTTL : Option Nat
deriving DecidableEq

/-- Lines 70 to 76: the captured parameter is stripped of a leading slash,
and when route content follows the closing brace that literal suffix is
trimmed from the value. -/
def extractIdValue (p : Project) (param : List Char) : List Char :=
  let idValue := goTrimPre (strL "/") param
  match firstIdx '}' p.route with
  | some e =>
    if e < p.route.length - 1 then goTrimSuf (p.route.drop (e + 1)) idValue else idValue
  | none => idValue

/-- Line 89: bypass intent from the two request headers. -/
def bypassCacheOf (req : Request) : Bool :=
  req.pragmaHeader == strL "no-cache" || containsSub (strL "no-cache") req.cacheControlHeader

/-- The handler body (lines 69 to 136). setErr records whether the cache
write failed; the code only logs it. -/
def createHandler (p : Project) (req : Request) (cacheReply : CacheGetReply)
    (fetchRes : FetchResult) (setErr : Bool) : HandlerOutcome :=
  if extractIdValue p req.param = [] then
    { status := 400, body := strL "ID not found in URL", contentType := none,
      xCacheStatus := none, cacheControlMaxAge := none,
      didCacheGet := false, didCacheSet := false, setTTL := none }
  else
    match (if bypassCacheOf req then none else cacheReply.data) with
    | some cached =>
      { status := 200, body := cached, contentType := some p.contentType,
        xCacheStatus := some (strL "HIT"), cacheControlMaxAge := some p.cacheTTL,
        didCacheGet := true, didCacheSet := false, setTTL := none }
    | none =>
      match fetchRes with
      | .fetchError =>
        { status := 500, body := strL "Internal Server Error!", contentType := none,
          xCacheStatus := some (if bypassCacheOf req then strL "BYPASS" else strL "MISS"),
          cacheControlMaxAge := none,
          didCacheGet := !bypassCacheOf req, didCacheSet := false, setTTL := none }
      | .notFound =>
        { status := 404, body := strL "Not Found", contentType := none,
          xCacheStatus := some (if bypassCacheOf req then strL "BYPASS" else strL "MISS"),
          cacheControlMaxAge := none,
          didCacheGet := !bypassCacheOf req, didCacheSet := false, setTTL := none }
      | .ok data =>
        { status := 200, body := data, contentType := some p.contentType,
          xCacheStatus := some (if bypassCacheOf req then strL "BYPASS" else strL "MISS"),
          cacheControlMaxAge := some p.cacheTTL,
          didCacheGet := !bypassCacheOf req, didCacheSet := true, setTTL := some p.cacheTTL }

/-- Empty extracted identifier: the fixed 400 response, no cache traffic. -/
theorem createHandler_no_id {p : Project} {req : Request} {rep : CacheGetReply}
    {f : FetchResult} {e : Bool} (h : extractIdValue p req.param = []) :
    createHandler p req rep f e =
      ⟨400, strL "ID not found in URL", none, none, none, false, false, none⟩ := by
  unfold createHandler
  rw [if_pos h]

/-- With bypass headers present, the lookup is skipped and the status
header reads BYPASS whatever the cache holds. -/
theorem createHandler_bypass_eq {p : Project} {req : Request} {rep : CacheGetReply}
    {f : FetchResult} {e : Bool} (hid : ¬extractIdValue p req.param = [])
    (hb : bypassCacheOf req = true) :
    createHandler p req rep f e =
      match f with
      | .fetchError =>
        ⟨500, strL "Internal Server Error!", none, some (strL "BYPASS"), none, false, false, none⟩
      | .notFound =>
        ⟨404, strL "Not Found", none, some (strL "BYPASS"), none, false, false, none⟩
      | .ok d =>
        ⟨200, d, some p.contentType, some (strL "BYPASS"), some p.cacheTTL, false, true,
          some p.cacheTTL⟩ := by
  unfold createHandler
  rw [if_neg hid]
  simp only [hb, if_true, Bool.not_true]

/-- Without bypass headers and with a non-absent cache reply, the cached
value is served as a HIT without consulting the data source. -/
theorem createHandler_hit_eq {p : Project} {req : Request} {rep : CacheGetReply}
    {f : FetchResult} {e : Bool} {b : List Char} (hid : ¬extractIdValue p req.param = [])
    (hb : bypassCacheOf req = false) (hd : rep.data = some b) :
    createHandler p req rep f e =
      ⟨200, b, some p.contentType, some (strL "HIT"), some p.cacheTTL, true, false, none⟩ := by
  unfold createHandler
  rw [if_neg hid]
  simp only [hb, Bool.false_eq_true, if_false, hd]

/-- Without bypass headers and with an absent cache reply, the fetch result
is served under a MISS header; a successful fetch is written back. -/
theorem createHandler_miss_eq {p : Project} {req : Request} {rep : CacheGetReply}
    {f : FetchResult} {e : Bool} (hid : ¬extractIdValue p req.param = [])
    (hb : bypassCacheOf req = false) (hd : rep.data = none) :
    createHandler p req rep f e =
      match f with
      | .fetchError =>
        ⟨500, strL "Internal Server Error!", none, some (strL "MISS"), none, true, false, none⟩
      | .notFound =>
        ⟨404, strL "Not Found", none, some (strL "MISS"), none, true, false, none⟩
      | .ok d =>
        ⟨200, d, some p.contentType, some (strL "MISS"), some p.cacheTTL, true, true,
          some p.cacheTTL⟩ := by
  unfold createHandler
  rw [if_neg hid]
  simp only [hb, Bool.false_eq_true, if_false, hd, Bool.not_false]

/-- The Go substring test agrees with the mathematical infix relation. -/
theorem containsSub_iff_infix (n h : List Char) : containsSub n h = true ↔ n <:+: h := by
  induction h with
  | nil => simp [containsSub, List.isEmpty_iff]
  | cons c t ih =>
    simp only [containsSub, Bool.or_eq_true, List.isPrefixOf_iff_prefix, ih]
    exact (List.infix_cons_iff).symm

/-- The project used for the cacheTTL-zero scenario. -/
def ttlZeroProject : Project :=
  { name := strL "p1", route := strL "/t/\x7bid\x7d", idPlaceholder := strL "id",
    contentType := strL "text/plain", cacheTTL := 0 }

/-- A request with no cache-relevant headers. -/
def plainRequest : Request :=
  { param := strL "x", pragmaHeader := [], cacheControlHeader := [] }

/-- Counterexample to claim C2: on a route whose descriptor has cacheTTL
zero, the dispatcher still performs the cache lookup (a stored value is
served as a HIT without bypass headers) and still creates a cache entry,
passing TTL zero to the cache write. -/
theorem claim_C2_counterexample :
    ttlZeroProject.cacheTTL = 0
  ∧ bypassCacheOf plainRequest = false
  ∧ (createHandler ttlZeroProject plainRequest ⟨some (strL "v"), false⟩
       (.ok (strL "v")) false).didCacheGet = true
  ∧ (createHandler ttlZeroProject plainRequest ⟨some (strL "v"), false⟩
       (.ok (strL "v")) false).xCacheStatus = some (strL "HIT")
  ∧ (createHandler ttlZeroProject plainRequest ⟨none, false⟩
       (.ok (strL "v")) false).didCacheSet = true
  ∧ (createHandler ttlZeroProject plainRequest ⟨none, false⟩
       (.ok (strL "v")) false).setTTL = some 0 := by
  decide

/-- Claim C2, amended: a zero cacheTTL does not disable caching. The
dispatcher performs the cache lookup whenever bypass headers are absent,
serves a present value as a HIT, and after a successful fetch writes the
value back with the zero TTL passed through to the cache layer. -/
theorem claim_C2_amended (p : Project) (req : Request) (rep : CacheGetReply)
    (f : FetchResult) (e : Bool) (d b : List Char)
    (h0 : p.cacheTTL = 0) (hid : ¬extractIdValue p req.param = []) :
    (bypassCacheOf req = false → (createHandler p req rep f e).didCacheGet = true)
  ∧ (bypassCacheOf req = false → rep.data = some b →
       (createHandler p req rep f e).xCacheStatus = some (strL "HIT"))
  ∧ ((bypassCacheOf req = true ∨ rep.data = none) → f = .ok d →
       (createHandler p req rep f e).didCacheSet = true
     ∧ (createHandler p req rep f e).setTTL = some 0) := by
  refine ⟨fun hb => ?_, fun hb hd => ?_, fun hmiss hf => ?_⟩
  · cases hd : rep.data with
    | some b2 => rw [createHandler_hit_eq hid hb hd]
    | none => rw [createHandler_miss_eq hid hb hd]; cases f <;> rfl
  · rw [createHandler_hit_eq hid hb hd]
  · subst hf
    rcases hmiss with hb | hd
    · rw [createHandler_bypass_eq hid hb]
      exact ⟨rfl, by rw [h0]⟩
    · cases hb : bypassCacheOf req with
      | true => rw [createHandler_bypass_eq hid hb]; exact ⟨rfl, by rw [h0]⟩
      | false => rw [createHandler_miss_eq hid hb hd]; exact ⟨rfl, by rw [h0]⟩

/-- Witness for the amended claim C2 at concrete inputs. -/
theorem claim_C2_amended_witness :
    (createHandler ttlZeroProject plainRequest ⟨none, false⟩
       (.ok (strL "v")) false).didCacheGet = true
  ∧ (createHandler ttlZeroProject plainRequest ⟨none, false⟩
       (.ok (strL "v")) false).didCacheSet = true
  ∧ (createHandler ttlZeroProject plainRequest ⟨none, false⟩
       (.ok (strL "v")) false).setTTL = some 0 := by
  have h := claim_C2_amended ttlZeroProject plainRequest ⟨none, false⟩
    (.ok (strL "v")) false (strL "v") (strL "v") rfl (by decide)
  exact ⟨h.1 (by decide), (h.2.2 (Or.inr rfl) rfl).1, (h.2.2 (Or.inr rfl) rfl).2⟩

/-- Claim C6: response mapping of the dispatcher. A fetch error yields the
fixed 500 body, not-found the fixed 404 body, an empty extracted identifier
the fixed 400 body, and fetched bytes a 200 carrying the descriptor content
type and exactly those bytes; the cache-write error flag never changes the
response. -/
theorem claim_C6_responses (p : Project) (req : Request) (rep : CacheGetReply)
    (e e2 : Bool) (d : List Char)
    (hmiss : bypassCacheOf req = true ∨ rep.data = none) :
    (extractIdValue p req.param = [] → ∀ f, createHandler p req rep f e =
        ⟨400, strL "ID not found in URL", none, none, none, false, false, none⟩)
  ∧ (¬extractIdValue p req.param = [] →
        ((createHandler p req rep .fetchError e).status = 500
          ∧ (createHandler p req rep .fetchError e).body = strL "Internal Server Error!")
      ∧ ((createHandler p req rep .notFound e).status = 404
          ∧ (createHandler p req rep .notFound e).body = strL "Not Found")
      ∧ ((createHandler p req rep (.ok d) e).status = 200
          ∧ (createHandler p req rep (.ok d) e).body = d
          ∧ (createHandler p req rep (.ok d) e).contentType = some p.contentType
          ∧ (createHandler p req rep (.ok d) e).didCacheSet = true))
  ∧ (∀ f, createHandler p req rep f e = createHandler p req rep f e2) := by
  refine ⟨fun h f => createHandler_no_id h, fun hid => ?_, fun f => rfl⟩
  rcases hmiss with hb | hd
  · rw [createHandler_bypass_eq hid hb, createHandler_bypass_eq hid hb,
      createHandler_bypass_eq hid hb]
    exact ⟨⟨rfl, rfl⟩, ⟨rfl, rfl⟩, rfl, rfl, rfl, rfl⟩
  · cases hb : bypassCacheOf req with
    | true =>
      rw [createHandler_bypass_eq hid hb, createHandler_bypass_eq hid hb,
        createHandler_bypass_eq hid hb]
      exact ⟨⟨rfl, rfl⟩, ⟨rfl, rfl⟩, rfl, rfl, rfl, rfl⟩
    | false =>
      rw [createHandler_miss_eq hid hb hd, createHandler_miss_eq hid hb hd,
        createHandler_miss_eq hid hb hd]
      exact ⟨⟨rfl, rfl⟩, ⟨rfl, rfl⟩, rfl, rfl, rfl, rfl⟩

/-- Witness for claim C6 at concrete inputs. -/
theorem claim_C6_responses_witness :
    (createHandler ttlZeroProject plainRequest ⟨none, false⟩ .fetchError false).status = 500
  ∧ (createHandler ttlZeroProject plainRequest ⟨none, false⟩ .notFound false).body = strL "Not Found"
  ∧ (createHandler ttlZeroProject plainRequest ⟨none, false⟩ (.ok (strL "v")) false).status = 200
  ∧ (createHandler ttlZeroProject ⟨[], [], []⟩ ⟨none, false⟩ .notFound false).status = 400 := by
  have h := claim_C6_responses ttlZeroProject plainRequest ⟨none, false⟩ false true
    (strL "v") (Or.inr rfl)
  have h2 := claim_C6_responses ttlZeroProject ⟨[], [], []⟩ ⟨none, false⟩ false true
    (strL "v") (Or.inr rfl)
  refine ⟨((h.2.1 (by decide)).1).1, ((h.2.1 (by decide)).2.1).2,
    ((h.2.1 (by decide)).2.2).1, ?_⟩
  rw [h2.1 (by decide) .notFound]

/-- Claim C7: cache bypass holds exactly when the Pragma header equals
no-cache or the Cache-Control header contains no-cache as a substring;
bypassing suppresses the lookup and forces the BYPASS status header even
when a value is cached; without bypass a present cache value is served as
a HIT; a cache-lookup error never aborts the request and is treated as a
miss. -/
theorem claim_C7_bypass (p : Project) (req : Request) (rep : CacheGetReply)
    (f : FetchResult) (e : Bool) (b d : List Char)
    (hid : ¬extractIdValue p req.param = []) :
    (bypassCacheOf req = true ↔
      (req.pragmaHeader = strL "no-cache" ∨ strL "no-cache" <:+: req.cacheControlHeader))
  ∧ (bypassCacheOf req = true →
      (createHandler p req rep f e).didCacheGet = false
      ∧ (createHandler p req rep f e).xCacheStatus = some (strL "BYPASS"))
  ∧ (bypassCacheOf req = false → rep.data = some b →
      (createHandler p req rep f e).xCacheStatus = some (strL "HIT")
      ∧ (createHandler p req rep f e).status = 200
      ∧ (createHandler p req rep f e).body = b
      ∧ (createHandler p req rep f e).didCacheGet = true)
  ∧ (∀ dat f2 e2, createHandler p req ⟨dat, true⟩ f2 e2 = createHandler p req ⟨dat, false⟩ f2 e2)
  ∧ (bypassCacheOf req = false → rep.errored = true → rep.data = none →
      (createHandler p req rep (.ok d) e).status = 200
      ∧ (createHandler p req rep (.ok d) e).body = d
      ∧ (createHandler p req rep (.ok d) e).xCacheStatus = some (strL "MISS")) := by
  refine ⟨?_, fun hb => ?_, fun hb hd => ?_, fun dat f2 e2 => rfl, fun hb he hd => ?_⟩
  · simp only [bypassCacheOf, Bool.or_eq_true, beq_iff_eq, containsSub_iff_infix]
  · rw [createHandler_bypass_eq hid hb]
    cases f <;> exact ⟨rfl, rfl⟩
  · rw [createHandler_hit_eq hid hb hd]
    exact ⟨rfl, rfl, rfl, rfl⟩
  · rw [createHandler_miss_eq hid hb hd]
    exact ⟨rfl, rfl, rfl⟩

/-- Witness for claim C7 at concrete inputs. -/
theorem claim_C7_bypass_witness :
    bypassCacheOf ⟨strL "x", strL "no-cache", []⟩ = true
  ∧ (createHandler ttlZeroProject ⟨strL "x", strL "no-cache", []⟩ ⟨some (strL "v"), false⟩
       (.ok (strL "w")) false).xCacheStatus = some (strL "BYPASS")
  ∧ (createHandler ttlZeroProject plainRequest ⟨some (strL "v"), false⟩
       (.ok (strL "w")) false).xCacheStatus = some (strL "HIT")
  ∧ (createHandler ttlZeroProject plainRequest ⟨none, true⟩
       (.ok (strL "w")) false).status = 200 := by
  have hby := claim_C7_bypass ttlZeroProject ⟨strL "x", strL "no-cache", []⟩
    ⟨some (strL "v"), false⟩ (.ok (strL "w")) false (strL "v") (strL "w") (by decide)
  have hhit := claim_C7_bypass ttlZeroProject plainRequest
    ⟨some (strL "v"), false⟩ (.ok (strL "w")) false (strL "v") (strL "w") (by decide)
  have herr := claim_C7_bypass ttlZeroProject plainRequest
    ⟨none, true⟩ (.ok (strL "w")) false (strL "v") (strL "w") (by decide)
  exact ⟨hby.1.mpr (Or.inl rfl), (hby.2.1 (hby.1.mpr (Or.inl rfl))).2,
    (hhit.2.2.1 (by decide) rfl).1, (herr.2.2.2.2 (by decide) rfl rfl).1⟩

/-! ## Cache Gateway (unnamed part_002 RedisCache, internal/cache/noop_cache.go)

The Redis client reply to Get is modelled as a closed datatype: the
key-missing sentinel (redis.Nil), a value, or a transport error. Get and
Set return an Except whose error case models a non-nil Go error; absent is
the none payload. -/

/-- The possible replies of the underlying Redis client to a Get. -/
inductive RedisReply where
  | keyMissing
  | val (b : List Char)
  | clientError
deriving DecidableEq

/-- RedisCache.Get (part_002 lines 42 to 51): the key-missing sentinel is
translated to nil-nil, a client error to an error, a value to itself. -/
def redisCacheGet : RedisReply → Except Unit (Option (List Char))
  | .keyMissing => .ok none
  | .val b => .ok (some b)
  | .clientError => .error ()

/-- NoOpCache.Get (noop_cache.go line 13): always nil, nil. -/
def noOpCacheGet (key : List Char) : Except Unit (Option (List Char)) := .ok none

/-- NoOpCache.Set (noop_cache.go line 17): always nil, discarding value and TTL. -/
def noOpCacheSet (key value : List Char) (ttl : Nat) : Except Unit Unit := .ok ()

/-- Claim C8: the Redis-backed Get maps the store-side key-does-not-exist
reply to absent, never to an error, and keeps absent distinct from a
stored empty value; the no-op cache always reports absent on Get and
succeeds on Set, and a dispatcher running over that absent reply still
serves the fetched bytes. -/
theorem claim_C8_cache_gateway (k v : List Char) (t : Nat) :
    redisCacheGet .keyMissing = .ok none
  ∧ (∀ b, redisCacheGet (.val b) = .ok (some b))
  ∧ redisCacheGet (.val []) ≠ redisCacheGet .keyMissing
  ∧ noOpCacheGet k = .ok none
  ∧ noOpCacheSet k v t = .ok ()
  ∧ (∀ p req e d, ¬extractIdValue p req.param = [] →
       (createHandler p req ⟨none, false⟩ (.ok d) e).status = 200
     ∧ (createHandler p req ⟨none, false⟩ (.ok d) e).body = d) := by
  refine ⟨rfl, fun b => rfl, by intro h; simpa [redisCacheGet] using h, rfl, rfl,
    fun p req e d hid => ?_⟩
  cases hb : bypassCacheOf req with
  | true => rw [createHandler_bypass_eq hid hb]; exact ⟨rfl, rfl⟩
  | false => rw [createHandler_miss_eq hid hb rfl]; exact ⟨rfl, rfl⟩

/-- Witness for claim C8 at concrete inputs. -/
theorem claim_C8_cache_gateway_witness :
    redisCacheGet .keyMissing = .ok none
  ∧ (createHandler ttlZeroProject plainRequest ⟨none, false⟩
       (.ok (strL "v")) false).status = 200 := by
  have h := claim_C8_cache_gateway (strL "k") (strL "v") 5
  exact ⟨h.1, (h.2.2.2.2.2 ttlZeroProject plainRequest false (strL "v") (by decide)).1⟩

/-! ## Route Placeholder Parser (unnamed part_001, extractIDPlaceholder lines 158 to 168)

The Go function takes the index of the first opening brace and the index of
the first closing brace of the whole pattern (not the first closing brace
after the opening one), errors when the opener is missing, errors when the
closer is missing or sits before the opener, and otherwise slices between
the two. On the success branch the two indices hold distinct characters,
so the Go slice bounds are valid there. -/

def extractIDPlaceholder (route : List Char) : Except (List Char) (List Char) :=
  match firstIdx '{' route with
  | none => .error (strL "no \x27\x7b\x27 found in route")
  | some s =>
    match firstIdx '}' route with
    | none => .error (strL "no \x27\x7d\x27 found after \x27\x7b\x27 in route")
    | some e =>
      if e < s then .error (strL "no \x27\x7d\x27 found after \x27\x7b\x27 in route")
      else .ok ((route.drop (s + 1)).take (e - (s + 1)))

/-- Counterexample to claim C4: the pattern with bytes closing brace,
opening brace, x, closing brace contains an opening brace (index 1) and a
closing brace after it (index 3), yet the parser fails, because it locates
the first closing brace of the whole pattern (index 0) and finds it before
the opener. The claim predicted success with placeholder x. -/
theorem claim_C4_counterexample :
    firstIdx '{' (strL "\x7d\x7bx\x7d") = some 1
  ∧ (strL "\x7d\x7bx\x7d").get? 3 = some '}'
  ∧ extractIDPlaceholder (strL "\x7d\x7bx\x7d") =
      .error (strL "no \x27\x7d\x27 found after \x27\x7b\x27 in route")
  ∧ extractIDPlaceholder (strL "\x7d\x7bx\x7d") ≠ .ok (strL "x") := by
  refine ⟨by decide, by decide, rfl, fun h => ?_⟩
  rw [show extractIDPlaceholder (strL "\x7d\x7bx\x7d") =
      .error (strL "no \x27\x7d\x27 found after \x27\x7b\x27 in route") from rfl] at h
  exact Except.noConfusion h

/-- Claim C4, amended: the parser succeeds exactly when the first closing
brace of the whole pattern follows the first opening brace, returning the
substring strictly between them; it fails with the no-opener message when
no opening brace exists (this check coming first), and with the no-closer
message when no closing brace exists or the first closing brace precedes
the first opening brace, even if a later closing brace follows it. -/
theorem claim_C4_amended (r : List Char) (s e : Nat) :
    (firstIdx '{' r = none →
       extractIDPlaceholder r = .error (strL "no \x27\x7b\x27 found in route"))
  ∧ (firstIdx '{' r = some s → firstIdx '}' r = none →
       extractIDPlaceholder r = .error (strL "no \x27\x7d\x27 found after \x27\x7b\x27 in route"))
  ∧ (firstIdx '{' r = some s → firstIdx '}' r = some e → e < s →
       extractIDPlaceholder r = .error (strL "no \x27\x7d\x27 found after \x27\x7b\x27 in route"))
  ∧ (firstIdx '{' r = some s → firstIdx '}' r = some e → s < e →
       extractIDPlaceholder r = .ok ((r.drop (s + 1)).take (e - (s + 1))))
  ∧ extractIDPlaceholder (strL "/api/users/\x7buser_id\x7d/avatar") = .ok (strL "user_id") := by
  refine ⟨fun h1 => ?_, fun h1 h2 => ?_, fun h1 h2 h3 => ?_, fun h1 h2 h3 => ?_, rfl⟩
  · unfold extractIDPlaceholder
    rw [h1]
  · unfold extractIDPlaceholder
    rw [h1, h2]
  · unfold extractIDPlaceholder
    rw [h1, h2]
    exact if_pos h3
  · unfold extractIDPlaceholder
    rw [h1, h2]
    exact if_neg (Nat.lt_asymm h3)

/-- Witness for the amended claim C4 at concrete inputs. -/
theorem claim_C4_amended_witness :
    extractIDPlaceholder (strL "/users/\x7bid\x7d") = .ok (strL "id")
  ∧ extractIDPlaceholder (strL "/users") = .error (strL "no \x27\x7b\x27 found in route") := by
  constructor
  · have h := (claim_C4_amended (strL "/users/\x7bid\x7d") 7 10).2.2.2.1
      (by decide) (by decide) (by decide)
    rw [h]
    exact rfl
  · exact (claim_C4_amended (strL "/users") 0 0).1 (by decide)

/-! ## Route translation (unnamed part_003, convertToGinRoute lines 150 to 166)

The Go function slices route[start+1:end] before testing whether content
follows the closing brace; when the first closing brace sits before the
first opening brace that slice has invalid bounds and the Go code panics,
modelled here as none. -/

def convertToGinRoute (route : List Char) : Option (List Char) :=
  match firstIdx '{' route with
  | none => some route
  | some s =>
    match firstIdx '}' route with
    | none => some route
    | some e =>
      if s + 1 ≤ e then
        if e < route.length - 1 then
          some (route.take s ++ '*' :: ((route.drop (s + 1)).take (e - (s + 1))))
        else
          some (route.take s ++ ':' :: ((route.drop (s + 1)).take (e - (s + 1))))
      else none

/-- firstIdx really points at the sought character. -/
theorem firstIdx_get? {c : Char} : ∀ {l : List Char} {i : Nat},
    firstIdx c l = some i → l.get? i = some c := by
  intro l
  induction l with
  | nil => intro i h; exact Option.noConfusion h
  | cons x t ih =>
    intro i h
    unfold firstIdx at h
    by_cases hx : x = c
    · rw [if_pos hx] at h
      cases h
      simp [hx]
    · rw [if_neg hx] at h
      cases hm : firstIdx c t with
      | none => rw [hm] at h; exact Option.noConfusion h
      | some j =>
        rw [hm] at h
        simp only [Option.map_some'] at h
        cases h
        simpa using ih hm

/-- Reduction of the translation on a pattern whose first opening brace
precedes its first closing brace. -/
theorem convertToGinRoute_eq_of {r : List Char} {s e : Nat}
    (hs : firstIdx '{' r = some s) (he : firstIdx '}' r = some e) (hle : s + 1 ≤ e) :
    convertToGinRoute r =
      if e < r.length - 1 then
        some (r.take s ++ '*' :: ((r.drop (s + 1)).take (e - (s + 1))))
      else
        some (r.take s ++ ':' :: ((r.drop (s + 1)).take (e - (s + 1)))) := by
  unfold convertToGinRoute
  rw [hs, he]
  show (if s + 1 ≤ e then
      if e < r.length - 1 then
        some (r.take s ++ '*' :: ((r.drop (s + 1)).take (e - (s + 1))))
      else
        some (r.take s ++ ':' :: ((r.drop (s + 1)).take (e - (s + 1))))
    else none) = _
  rw [if_pos hle]

/-- On a well-formed pattern the two brace indices differ, since they hold
different characters. -/
theorem firstIdx_braces_ne {r : List Char} {s e : Nat}
    (hs : firstIdx '{' r = some s) (he : firstIdx '}' r = some e) : s ≠ e := by
  intro heq
  have h1 := firstIdx_get? hs
  have h2 := firstIdx_get? he
  rw [heq] at h1
  rw [h1] at h2
  exact absurd (Option.some.inj h2) (by decide)

/-- Claim C9: translation of a one-placeholder pattern. A placeholder
closed at the final character becomes the prefix plus a single-segment
capture of the placeholder name; trailing content after the closing brace
turns it into a greedy capture, the literal suffix being stripped from the
captured value at request time; a pattern without an opening brace passes
through unchanged. -/
theorem claim_C9_route_translation (r : List Char) (s e : Nat)
    (hs : firstIdx '{' r = some s) (he : firstIdx '}' r = some e) (hlt : s < e) :
    (e = r.length - 1 → convertToGinRoute r =
        some (r.take s ++ ':' :: ((r.drop (s + 1)).take (e - (s + 1)))))
  ∧ (e < r.length - 1 → convertToGinRoute r =
        some (r.take s ++ '*' :: ((r.drop (s + 1)).take (e - (s + 1)))))
  ∧ (∀ r2, firstIdx '{' r2 = none → convertToGinRoute r2 = some r2)
  ∧ convertToGinRoute (strL "/users/\x7bid\x7d") = some (strL "/users/:id")
  ∧ convertToGinRoute (strL "/users/\x7bid\x7d/profile") = some (strL "/users/*id")
  ∧ (∀ p param e2, firstIdx '}' (Project.route p) = some e2 →
       e2 < (Project.route p).length - 1 →
       extractIdValue p param =
         goTrimSuf ((Project.route p).drop (e2 + 1)) (goTrimPre (strL "/") param)) := by
  refine ⟨fun hend => ?_, fun hend => ?_, fun r2 h2 => ?_, rfl, rfl,
    fun p param e2 h2 hlt2 => ?_⟩
  · rw [convertToGinRoute_eq_of hs he hlt, if_neg (by rw [hend]; exact Nat.lt_irrefl _)]
  · rw [convertToGinRoute_eq_of hs he hlt, if_pos hend]
  · unfold convertToGinRoute
    rw [h2]
  · unfold extractIdValue
    rw [h2]
    exact if_pos hlt2

/-- Witness for claim C9 at concrete inputs. -/
theorem claim_C9_route_translation_witness :
    convertToGinRoute (strL "/users/\x7bid\x7d") = some (strL "/users/:id")
  ∧ convertToGinRoute (strL "/users/\x7bid\x7d/profile") = some (strL "/users/*id")
  ∧ convertToGinRoute (strL "/users") = some (strL "/users") := by
  have h := claim_C9_route_translation (strL "/users/\x7bid\x7d") 7 10
    (by decide) (by decide) (by decide)
  exact ⟨h.2.2.2.1, h.2.2.2.2.1, h.2.2.1 (strL "/users") (by decide)⟩

/-- Claim C10: whenever the load-time placeholder parser accepts a pattern,
the first opening brace strictly precedes the first closing brace, the
slice bounds inside the route translation are valid, and the translation
returns a route (no panic); the precondition is necessary, as the pattern
with bytes closing brace, opening brace, x, closing brace has both braces
yet makes the slice bounds invalid. -/
theorem claim_C10_translation_total (r p : List Char)
    (h : extractIDPlaceholder r = .ok p) :
    (∃ s e, firstIdx '{' r = some s ∧ firstIdx '}' r = some e ∧ s < e)
  ∧ (∃ g, convertToGinRoute r = some g)
  ∧ convertToGinRoute (strL "\x7d\x7bx\x7d") = none := by
  unfold extractIDPlaceholder at h
  cases hs : firstIdx '{' r with
  | none => rw [hs] at h; exact Except.noConfusion h
  | some s =>
    rw [hs] at h
    cases he : firstIdx '}' r with
    | none => rw [he] at h; exact Except.noConfusion h
    | some e =>
      rw [he] at h
      by_cases hlt : e < s
      · simp only [if_pos hlt] at h
        exact Except.noConfusion h
      · have hslt : s < e :=
          Nat.lt_of_le_of_ne (Nat.not_lt.mp hlt) (firstIdx_braces_ne hs he)
        refine ⟨⟨s, e, rfl, rfl, hslt⟩, ?_, rfl⟩
        rw [convertToGinRoute_eq_of hs he hslt]
        by_cases hend : e < r.length - 1
        · rw [if_pos hend]; exact ⟨_, rfl⟩
        · rw [if_neg hend]; exact ⟨_, rfl⟩

/-- Witness for claim C10 at a concrete accepted pattern. -/
theorem claim_C10_translation_total_witness :
    (∃ g, convertToGinRoute (strL "/t/\x7bid\x7d") = some g)
  ∧ convertToGinRoute (strL "\x7d\x7bx\x7d") = none := by
  have h := claim_C10_translation_total (strL "/t/\x7bid\x7d") (strL "id") rfl
  exact ⟨h.2.1, h.2.2⟩

/-! ## Database fetch (internal/database/database.go)

GenericDB.Fetch validates the three identifiers, builds the query text with
dialect quoting and placeholder, and executes it with the identifier value
as the only bound parameter. Execution is external I/O, so the embedding
returns the plan the code would execute: the exact query text together
with the list of bound parameters, or the validation error. -/

/-- The regular expression anchored character class of database.go line 27:
letters, digits, underscore, at least one character. -/
def isValidIdentifier (name : List Char) : Bool :=
  !name.isEmpty && name.all fun c =>
    (97 ≤ c.toNat && c.toNat ≤ 122) || (65 ≤ c.toNat && c.toNat ≤ 90) ||
    (48 ≤ c.toNat && c.toNat ≤ 57) || c.toNat == 95

/-- QuoteIdentifier (database.go lines 88 to 98). -/
def quoteIdentifier (driverName : String) (name : List Char) : List Char :=
  if driverName = "postgres" then strL "\"" ++ name ++ strL "\""
  else if driverName = "mysql" then strL "`" ++ name ++ strL "`"
  else name

/-- Go strings.Replace with count one, for a one-byte pattern. -/
def replaceFirstChar (pat : Char) (rep : List Char) : List Char → List Char
  | [] => []
  | c :: t => if c = pat then rep ++ t else c :: replaceFirstChar pat rep t

/-- The query text and bound parameters handed to the SQL driver. -/
structure QueryPlan where
  query : List Char
  params : List (List Char)
deriving DecidableEq

/-- GenericDB.Fetch up to query execution (database.go lines 54 to 70). -/
def genericDBFetch (driverName : String) (table idColumn serveColumn idValue : List Char) :
    Except (List Char) QueryPlan :=
  if !isValidIdentifier table || !isValidIdentifier idColumn || !isValidIdentifier serveColumn then
    .error (strL "invalid table or column name")
  else
    let query := strL "SELECT " ++ quoteIdentifier driverName serveColumn ++
      strL " FROM " ++ quoteIdentifier driverName table ++
      strL " WHERE " ++ quoteIdentifier driverName idColumn ++ strL " = ?"
    let query := if driverName = "postgres" then replaceFirstChar '?' (strL "$1") query else query
    .ok ⟨query, [idValue]⟩

/-- The byte pat does not occur in l. -/
def noChar (pat : Char) (l : List Char) : Bool := l.all fun c => !(c = pat)

/-- noChar distributes over append. -/
theorem noChar_append {pat : Char} {a b : List Char} :
    noChar pat (a ++ b) = (noChar pat a && noChar pat b) := by
  simp [noChar]

/-- Replacement walks over a front free of the pattern and rewrites the
occurrence that follows it. -/
theorem replaceFirstChar_append {pat : Char} {rep : List Char} :
    ∀ {a : List Char}, noChar pat a = true →
      ∀ (b : List Char), replaceFirstChar pat rep (a ++ b) = a ++ replaceFirstChar pat rep b := by
  intro a
  induction a with
  | nil => intro _ b; simp
  | cons x xs ih =>
    intro hall b
    have hx : ¬x = pat := by
      intro heq
      rw [noChar, List.all_cons, heq] at hall
      simp at hall
    have hxs : noChar pat xs = true := by
      rw [noChar, List.all_cons, Bool.and_eq_true] at hall
      exact hall.2
    show (if x = pat then rep ++ (xs ++ b) else x :: replaceFirstChar pat rep (xs ++ b)) =
      (x :: xs) ++ replaceFirstChar pat rep b
    rw [if_neg hx, ih hxs b]
    rfl

/-- A valid identifier never contains a question mark byte. -/
theorem isValidIdentifier_noQmark {name : List Char} (h : isValidIdentifier name = true) :
    noChar '?' name = true := by
  simp only [isValidIdentifier, Bool.and_eq_true, List.all_eq_true] at h
  simp only [noChar, List.all_eq_true]
  intro c hc
  have hb := h.2 c hc
  simp only [Bool.or_eq_true, Bool.and_eq_true, decide_eq_true_eq, beq_iff_eq] at hb
  have h63 : ¬c.toNat = 63 := by omega
  simp only [Bool.not_eq_true', decide_eq_false_iff_not]
  intro heq
  rw [heq] at h63
  exact h63 (by decide)

/-- A quoted identifier of either dialect stays free of question marks. -/
theorem quoteIdentifier_noQmark {d : String} {name : List Char}
    (h : isValidIdentifier name = true) : noChar '?' (quoteIdentifier d name) = true := by
  unfold quoteIdentifier
  by_cases hp : d = "postgres"
  · rw [if_pos hp]
    simp only [noChar_append, Bool.and_eq_true]
    exact ⟨⟨by decide, isValidIdentifier_noQmark h⟩, by decide⟩
  · rw [if_neg hp]
    by_cases hm : d = "mysql"
    · rw [if_pos hm]
      simp only [noChar_append, Bool.and_eq_true]
      exact ⟨⟨by decide, isValidIdentifier_noQmark h⟩, by decide⟩
    · rw [if_neg hm]
      exact isValidIdentifier_noQmark h

/-- The exact postgres plan on valid identifiers. -/
theorem genericDBFetch_postgres {table idColumn serveColumn : List Char} (idValue : List Char)
    (ht : isValidIdentifier table = true) (hi : isValidIdentifier idColumn = true)
    (hsv : isValidIdentifier serveColumn = true) :
    genericDBFetch "postgres" table idColumn serveColumn idValue =
      .ok ⟨strL "SELECT \"" ++ serveColumn ++ strL "\" FROM \"" ++ table ++
        strL "\" WHERE \"" ++ idColumn ++ strL "\" = $1", [idValue]⟩ := by
  unfold genericDBFetch
  rw [ht, hi, hsv]
  simp only [Bool.not_true, Bool.or_self, Bool.or_false, Bool.false_or, Bool.false_eq_true,
    if_false, eq_self_iff_true, if_true]
  have hpre : noChar '?' (strL "SELECT " ++ quoteIdentifier "postgres" serveColumn ++
      strL " FROM " ++ quoteIdentifier "postgres" table ++
      strL " WHERE " ++ quoteIdentifier "postgres" idColumn) = true := by
    simp only [noChar_append, Bool.and_eq_true]
    refine ⟨⟨⟨⟨⟨?_, ?_⟩, ?_⟩, ?_⟩, ?_⟩, ?_⟩ <;>
      first
        | decide
        | exact quoteIdentifier_noQmark hsv
        | exact quoteIdentifier_noQmark ht
        | exact quoteIdentifier_noQmark hi
  rw [replaceFirstChar_append hpre (strL " = ?")]
  rw [show replaceFirstChar '?' (strL "$1") (strL " = ?") = strL " = $1" from rfl]
  simp [quoteIdentifier, strL, List.append_assoc]

/-- The exact mysql plan on valid identifiers. -/
theorem genericDBFetch_mysql {table idColumn serveColumn : List Char} (idValue : List Char)
    (ht : isValidIdentifier table = true) (hi : isValidIdentifier idColumn = true)
    (hsv : isValidIdentifier serveColumn = true) :
    genericDBFetch "mysql" table idColumn serveColumn idValue =
      .ok ⟨strL "SELECT `" ++ serveColumn ++ strL "` FROM `" ++ table ++
        strL "` WHERE `" ++ idColumn ++ strL "` = ?", [idValue]⟩ := by
  unfold genericDBFetch
  rw [ht, hi, hsv]
  simp only [Bool.not_true, Bool.or_self, Bool.or_false, Bool.false_or, Bool.false_eq_true,
    if_false]
  rw [if_neg (by decide : ¬("mysql" : String) = "postgres")]
  simp [quoteIdentifier, strL, List.append_assoc]

/-- Claim C5: the fetch validates all three identifiers against the
letters-digits-underscore rule (rejecting the empty string) and returns
the invalid-identifier error without producing a query when any fails;
on valid identifiers the executed query text is exactly the
single-predicate equality lookup with dialect quoting and placeholder, the
identifier value travels only in the bound-parameter list, and the query
text does not depend on the value. -/
theorem claim_C5_sql_safety (d : String) (table idColumn serveColumn idValue v2 name : List Char) :
    ((isValidIdentifier table = false ∨ isValidIdentifier idColumn = false
        ∨ isValidIdentifier serveColumn = false) →
      genericDBFetch d table idColumn serveColumn idValue =
        .error (strL "invalid table or column name"))
  ∧ (isValidIdentifier name = true ↔
      (name ≠ [] ∧ ∀ c ∈ name,
        (97 ≤ c.toNat ∧ c.toNat ≤ 122) ∨ (65 ≤ c.toNat ∧ c.toNat ≤ 90)
        ∨ (48 ≤ c.toNat ∧ c.toNat ≤ 57) ∨ c.toNat = 95))
  ∧ isValidIdentifier [] = false
  ∧ (isValidIdentifier table = true → isValidIdentifier idColumn = true →
      isValidIdentifier serveColumn = true →
      genericDBFetch "postgres" table idColumn serveColumn idValue =
        .ok ⟨strL "SELECT \"" ++ serveColumn ++ strL "\" FROM \"" ++ table ++
          strL "\" WHERE \"" ++ idColumn ++ strL "\" = $1", [idValue]⟩
    ∧ genericDBFetch "mysql" table idColumn serveColumn idValue =
        .ok ⟨strL "SELECT `" ++ serveColumn ++ strL "` FROM `" ++ table ++
          strL "` WHERE `" ++ idColumn ++ strL "` = ?", [idValue]⟩)
  ∧ ((genericDBFetch d table idColumn serveColumn idValue).map QueryPlan.query =
      (genericDBFetch d table idColumn serveColumn v2).map QueryPlan.query)
  ∧ (∀ q ps, genericDBFetch d table idColumn serveColumn idValue = .ok ⟨q, ps⟩ →
      ps = [idValue]) := by
  refine ⟨fun h => ?_, ?_, by decide, fun ht hi hsv =>
    ⟨genericDBFetch_postgres idValue ht hi hsv, genericDBFetch_mysql idValue ht hi hsv⟩,
    ?_, fun q ps h => ?_⟩
  · unfold genericDBFetch
    have hc : (!isValidIdentifier table || !isValidIdentifier idColumn
        || !isValidIdentifier serveColumn) = true := by
      rcases h with h | h | h <;> rw [h] <;> simp
    rw [if_pos hc]
  · simp only [isValidIdentifier, Bool.and_eq_true, Bool.not_eq_true', List.isEmpty_eq_false,
      List.all_eq_true, Bool.or_eq_true, decide_eq_true_eq, beq_iff_eq]
    constructor
    · rintro ⟨h1, h2⟩
      exact ⟨h1, fun c hc => by rcases h2 c hc with ((h | h) | h) | h <;> tauto⟩
    · rintro ⟨h1, h2⟩
      exact ⟨h1, fun c hc => by rcases h2 c hc with h | h | h | h <;> tauto⟩
  · unfold genericDBFetch
    by_cases hc : (!isValidIdentifier table || !isValidIdentifier idColumn
        || !isValidIdentifier serveColumn) = true
    · rw [if_pos hc, if_pos hc]
    · rw [if_neg hc, if_neg hc]
      rfl
  · unfold genericDBFetch at h
    by_cases hc : (!isValidIdentifier table || !isValidIdentifier idColumn
        || !isValidIdentifier serveColumn) = true
    · rw [if_pos hc] at h
      exact Except.noConfusion h
    · rw [if_neg hc] at h
      exact (congrArg QueryPlan.params (Except.ok.inj h)).symm

/-- Witness for claim C5 at concrete inputs. -/
theorem claim_C5_sql_safety_witness :
    genericDBFetch "postgres" (strL "users") (strL "user_id") (strL "avatar_data") (strL "42") =
      .ok ⟨strL "SELECT \"avatar_data\" FROM \"users\" WHERE \"user_id\" = $1", [strL "42"]⟩
  ∧ genericDBFetch "mysql" (strL "bad name") (strL "id") (strL "c") (strL "42") =
      .error (strL "invalid table or column name") := by
  have h := claim_C5_sql_safety "postgres" (strL "users") (strL "user_id") (strL "avatar_data")
    (strL "42") (strL "7") (strL "x")
  have h2 := claim_C5_sql_safety "mysql" (strL "bad name") (strL "id") (strL "c")
    (strL "42") (strL "7") (strL "x")
  constructor
  · have hp := (h.2.2.2.1 (by decide) (by decide) (by decide)).1
    rw [hp]
    rfl
  · exact h2.1 (Or.inl (by decide))

/-! ## Connection Pool Registry (internal/database/database.go, ConnectionManager.Get)

The double-checked locking of Get is modelled as an interleaving transition
system over one fixed connection string. Each worker reads the map under
the shared lock (the read is one atomic step, since every writer holds the
exclusive lock) and, on a miss, later enters the exclusive critical
section, re-checks, and only then connects and inserts; the critical
section is one atomic step because all map mutations happen under the same
exclusive lock. A fresh handle is identified by the number of connect
attempts made before it, so distinct connect attempts yield distinct
handles. -/

/-- One worker of ConnectionManager.Get: before the shared-lock read, after
a read miss, or returned with a handle. -/
inductive TState where
  | ready
  | sawMiss
  | finished (h : Nat)
deriving DecidableEq

/-- The handle a finished worker returned, if any. -/
def TState.handleOf : TState → Option Nat
  | .finished h => some h
  | _ => none

/-- Global state: the map entry for the one connection string, the number
of connect attempts made so far, and the workers. -/
structure RegState where
  entry : Option Nat
  attempts : Nat
  threads : List TState
deriving DecidableEq

/-- Interleaving steps of ConnectionManager.Get (database.go lines 118 to 142). -/
inductive RegStep : RegState → RegState → Prop where
  | readHit (s : RegState) (i h : Nat) :
      s.threads.get? i = some .ready → s.entry = some h →
      RegStep s { s with threads := s.threads.set i (.finished h) }
  | readMiss (s : RegState) (i : Nat) :
      s.threads.get? i = some .ready → s.entry = none →
      RegStep s { s with threads := s.threads.set i .sawMiss }
  | lockHit (s : RegState) (i h : Nat) :
      s.threads.get? i = some .sawMiss → s.entry = some h →
      RegStep s { s with threads := s.threads.set i (.finished h) }
  | lockCreate (s : RegState) (i : Nat) :
      s.threads.get? i = some .sawMiss → s.entry = none →
      RegStep s { entry := some s.attempts, attempts := s.attempts + 1,
                  threads := s.threads.set i (.finished s.attempts) }

/-- The initial state: empty map, no connect attempts, n workers about to
call Get for the same never-seen connection string. -/
def regInit (n : Nat) : RegState :=
  { entry := none, attempts := 0, threads := List.replicate n .ready }

/-- States reachable by interleaving the n workers. -/
def RegReach (n : Nat) (s : RegState) : Prop :=
  Relation.ReflTransGen RegStep (regInit n) s

/-- Registry invariant: at most one connect attempt ever happens, the map
entry is exactly the handle of that attempt, and every finished worker
holds that same handle. -/
def RegInv (s : RegState) : Prop :=
  (s.attempts = 0 ∧ s.entry = none ∨ s.attempts = 1 ∧ s.entry = some 0)
  ∧ ∀ t ∈ s.threads, ∀ h, t = TState.finished h → h = 0 ∧ s.entry = some 0

/-- The invariant holds initially. -/
theorem regInv_init (n : Nat) : RegInv (regInit n) := by
  refine ⟨Or.inl ⟨rfl, rfl⟩, fun t ht h hf => ?_⟩
  rw [List.eq_of_mem_replicate ht] at hf
  exact TState.noConfusion hf

/-- Each step preserves the invariant. -/
theorem regInv_step {s s2 : RegState} (hi : RegInv s) (hs : RegStep s s2) : RegInv s2 := by
  obtain ⟨hcnt, hdone⟩ := hi
  cases hs with
  | readHit i h hread hentry =>
    have h0 : h = 0 := by
      rcases hcnt with ⟨_, he⟩ | ⟨_, he⟩
      · rw [he] at hentry; exact Option.noConfusion hentry
      · rw [he] at hentry; exact (Option.some.inj hentry).symm
    subst h0
    have hc1 : s.attempts = 1 ∧ s.entry = some 0 := by
      rcases hcnt with ⟨_, he⟩ | hc
      · rw [he] at hentry; exact Option.noConfusion hentry
      · exact hc
    refine ⟨Or.inr hc1, fun t ht h2 hf => ?_⟩
    rcases List.mem_or_eq_of_mem_set ht with hmem | hval
    · exact hdone t hmem h2 hf
    · rw [hval] at hf
      exact ⟨(TState.finished.inj hf).symm, hc1.2⟩
  | readMiss i hread hentry =>
    refine ⟨hcnt, fun t ht h2 hf => ?_⟩
    rcases List.mem_or_eq_of_mem_set ht with hmem | hval
    · exact hdone t hmem h2 hf
    · rw [hval] at hf
      exact TState.noConfusion hf
  | lockHit i h hread hentry =>
    have h0 : h = 0 := by
      rcases hcnt with ⟨_, he⟩ | ⟨_, he⟩
      · rw [he] at hentry; exact Option.noConfusion hentry
      · rw [he] at hentry; exact (Option.some.inj hentry).symm
    subst h0
    have hc1 : s.attempts = 1 ∧ s.entry = some 0 := by
      rcases hcnt with ⟨_, he⟩ | hc
      · rw [he] at hentry; exact Option.noConfusion hentry
      · exact hc
    refine ⟨Or.inr hc1, fun t ht h2 hf => ?_⟩
    rcases List.mem_or_eq_of_mem_set ht with hmem | hval
    · exact hdone t hmem h2 hf
    · rw [hval] at hf
      exact ⟨(TState.finished.inj hf).symm, hc1.2⟩
  | lockCreate i hread hentry =>
    have ha0 : s.attempts = 0 := by
      rcases hcnt with ⟨ha, _⟩ | ⟨_, he⟩
      · exact ha
      · rw [he] at hentry; exact Option.noConfusion hentry
    refine ⟨Or.inr ⟨by rw [ha0], by rw [ha0]⟩, fun t ht h2 hf => ?_⟩
    rcases List.mem_or_eq_of_mem_set ht with hmem | hval
    · exact absurd (hdone t hmem h2 hf).2 (by rw [hentry]; exact fun h => Option.noConfusion h)
    · rw [hval] at hf
      refine ⟨?_, by rw [ha0]⟩
      rw [← (TState.finished.inj hf), ha0]

/-- Every reachable state satisfies the invariant. -/
theorem regInv_reach {n : Nat} {s : RegState} (hr : RegReach n s) : RegInv s := by
  induction hr with
  | refl => exact regInv_init n
  | tail _ hstep ih => exact regInv_step ih hstep

/-- Claim C3: under any interleaving of any number of workers racing on
one never-seen connection string, at most one connect attempt happens,
every finished worker holds the same handle (the one recorded in the map),
and once any worker has finished, exactly one connect attempt has
happened and the map caches its handle for all later calls. -/
theorem claim_C3_registry (n : Nat) (s : RegState) (hr : RegReach n s) :
    s.attempts ≤ 1
  ∧ (∀ t ∈ s.threads, TState.handleOf t = none ∨ t = TState.finished 0)
  ∧ (s.entry = none ∨ s.entry = some 0)
  ∧ ((∃ t ∈ s.threads, TState.handleOf t ≠ none) → s.attempts = 1 ∧ s.entry = some 0) := by
  obtain ⟨hcnt, hdone⟩ := regInv_reach hr
  refine ⟨?_, fun t ht => ?_, ?_, fun ⟨t, ht, hne⟩ => ?_⟩
  · rcases hcnt with ⟨h, _⟩ | ⟨h, _⟩ <;> omega
  · cases t with
    | finished h => exact Or.inr (by rw [(hdone _ ht h rfl).1])
    | ready => exact Or.inl rfl
    | sawMiss => exact Or.inl rfl
  · rcases hcnt with ⟨_, h⟩ | ⟨_, h⟩
    · exact Or.inl h
    · exact Or.inr h
  · cases t with
    | finished h =>
      have hd := hdone _ ht h rfl
      rcases hcnt with ⟨ha, he⟩ | hc
      · rw [he] at hd
        exact absurd hd.2 fun x => Option.noConfusion x
      · exact hc
    | ready => exact absurd rfl hne
    | sawMiss => exact absurd rfl hne

/-- Witness for claim C3: a concrete interleaving of two workers that both
miss on the first read, after which one connects and the other re-checks
under the lock and adopts the same handle. -/
theorem claim_C3_registry_witness :
    RegReach 2 ⟨some 0, 1, [TState.finished 0, TState.finished 0]⟩
  ∧ (⟨some 0, 1, [TState.finished 0, TState.finished 0]⟩ : RegState).attempts = 1 := by
  have t0 : RegReach 2 (regInit 2) := Relation.ReflTransGen.refl
  have t1 : RegReach 2 ⟨none, 0, [TState.sawMiss, TState.ready]⟩ :=
    Relation.ReflTransGen.tail t0 (RegStep.readMiss (regInit 2) 0 rfl rfl)
  have t2 : RegReach 2 ⟨none, 0, [TState.sawMiss, TState.sawMiss]⟩ :=
    Relation.ReflTransGen.tail t1 (RegStep.readMiss _ 1 rfl rfl)
  have t3 : RegReach 2 ⟨some 0, 1, [TState.finished 0, TState.sawMiss]⟩ :=
    Relation.ReflTransGen.tail t2 (RegStep.lockCreate _ 0 rfl rfl)
  have htrace : RegReach 2 ⟨some 0, 1, [TState.finished 0, TState.finished 0]⟩ :=
    Relation.ReflTransGen.tail t3 (RegStep.lockHit _ 1 0 rfl rfl)
  refine ⟨htrace, ?_⟩
  exact ((claim_C3_registry 2 _ htrace).2.2.2
    ⟨TState.finished 0, by simp, by simp [TState.handleOf]⟩).1
